import Mathlib

/-!
Verification of the render bridge in `engine.py` (ERPT-RE-Blender-Addon).

The file shallowly embeds the `POCEngine.render` method (engine.py lines
40-91): the resolution computation, the socket lifecycle (bind / listen /
accept / send / receive-until-close / close), the per-chunk UTF-8 decoding
of the inbound stream, Python's `str.strip`, `json.loads`, and the final
result-assembly calls.  Machine-level I/O is modelled by an explicit event
trace together with an outcome (completed / raised exception / blocked).

Bytes and Unicode code points are modelled as `Nat` (bytes are 0..255).
The inbound socket stream is a list of `recv` results: `some chunk` is a
successful read returning `chunk` (empty chunk = peer closed its write
side), `none` is a read that raises an OS error.  A stream that ends
without an empty chunk leaves the loop blocked forever (no timeout), which
is modelled by the `blocked` outcome.

The reversed-digit length framing of the spec's SnapshotCodec does not
appear in `src/engine.py` (the source holds the plain-text protocol
variant); it is modelled from the spec in the clearly marked section
below.
-/

/-! ## Resolution computation (engine.py lines 43-45)

`scale = scene.render.resolution_percentage / 100.0` followed by
`int(scene.render.resolution_y * scale)`.  For non-negative integer
inputs Python's `int()` truncation of `res * (pct / 100.0)` agrees with
truncating natural division `res * pct / 100` at every input relevant
here; in particular the boundary `res * pct = 100` is reached exactly
(all factorisations of 100 round to at least 1.0 in IEEE double), and the
counterexample input `4 * (1 / 100.0) = 0.04000000000000000083...`
truncates to 0 just as `4 * 1 / 100 = 0` does. -/

structure Scene where
  resolution_x : Nat
  resolution_y : Nat
  resolution_percentage : Nat
deriving DecidableEq

def computeSize (res pct : Nat) : Nat := res * pct / 100

def sizeX (sc : Scene) : Nat := computeSize sc.resolution_x sc.resolution_percentage

def sizeY (sc : Scene) : Nat := computeSize sc.resolution_y sc.resolution_percentage

/-! ## Decimal digits

`natDigitsAux fuel n` is the little-endian (least-significant-first) list
of decimal digits of `n`; `fuel ≥ n` guarantees enough recursion depth.
`decString n` is the ASCII encoding of Python's `str(n)` /
`"{}".format(n)` for a non-negative integer. -/

def natDigitsAux : Nat → Nat → List Nat
  | _, 0 => []
  | 0, _ + 1 => []
  | fuel + 1, n + 1 => (n + 1) % 10 :: natDigitsAux fuel ((n + 1) / 10)

def reverseDigits (L : Nat) : List Nat :=
  if L = 0 then [0] else natDigitsAux L L

def digitChar (d : Nat) : Nat := 48 + d

def decString (n : Nat) : List Nat := ((reverseDigits n).reverse).map digitChar

def digitsVal (l : List Nat) : Nat := l.foldl (fun a d => 10 * a + d) 0

def digitsValLE : List Nat → Nat
  | [] => 0
  | d :: ds => d + 10 * digitsValLE ds

/-! ## UTF-8 decoding (models Python `bytes.decode("utf8")`, strict)

Returns the list of decoded code points, or `none` on any invalid input:
stray continuation bytes, truncated sequences, overlong encodings
(including lead bytes 0xC0/0xC1), surrogate code points and code points
above U+10FFFF, exactly as CPython's strict UTF-8 codec rejects them. -/

def contB (b : Nat) : Bool := 128 ≤ b && b < 192

def cpInvalid (lo cp : Nat) : Bool :=
  decide (cp < lo) || (decide (55296 ≤ cp) && decide (cp < 57344)) || decide (1114111 < cp)

/-- State-machine form of the decoder: `need` is the number of
continuation bytes still expected for the current sequence, `acc` the
partial code-point value, `lo` the smallest legal final value (the
overlong check).  A lead byte below 0xC2 that is not ASCII is rejected
at once (stray continuation bytes and the overlong leads 0xC0/0xC1);
lead bytes 0xF5..0xFF are rejected; a completed sequence is rejected if
its value is overlong, a surrogate, or above U+10FFFF; input ending
mid-sequence is rejected. -/
def utf8Run : Nat → Nat → Nat → List Nat → Option (List Nat)
  | 0, _, _, [] => some []
  | _ + 1, _, _, [] => none
  | 0, _, _, b :: r =>
    if b < 128 then (utf8Run 0 0 0 r).map (fun t => b :: t)
    else if b < 194 then none
    else if b < 224 then utf8Run 1 (b - 192) 128 r
    else if b < 240 then utf8Run 2 (b - 224) 2048 r
    else if b < 245 then utf8Run 3 (b - 240) 65536 r
    else none
  | 1, acc, lo, b :: r =>
    if contB b then
      if cpInvalid lo (acc * 64 + (b - 128)) then none
      else (utf8Run 0 0 0 r).map (fun t => (acc * 64 + (b - 128)) :: t)
    else none
  | need + 2, acc, lo, b :: r =>
    if contB b then utf8Run (need + 1) (acc * 64 + (b - 128)) lo r else none

def utf8Decode (l : List Nat) : Option (List Nat) := utf8Run 0 0 0 l

/-! ## Python `str.strip()` (engine.py line 78)

Removes leading and trailing whitespace.  The whitespace set covers the
ASCII/Latin-1 whitespace code points recognised by `str.strip`; the
further Unicode space characters (U+2000 etc.) are irrelevant to the
payloads exchanged here. -/

def pySpace (c : Nat) : Bool :=
  c == 32 || c == 9 || c == 10 || c == 11 || c == 12 || c == 13 ||
  (28 ≤ c && c ≤ 31) || c == 133 || c == 160

def pyStrip (s : List Nat) : List Nat :=
  ((s.dropWhile pySpace).reverse.dropWhile pySpace).reverse

/-! ## JSON parsing (models Python `json.loads`, engine.py line 81)

Values are parsed from a list of code points.  Numbers keep their raw
lexeme (the numeric value is irrelevant to the bridge, only parse
success and array shape matter); the grammar is CPython's: optional
minus, `0` or a nonzero-led digit run, optional fraction, optional
exponent, plus the `NaN` / `Infinity` / `-Infinity` extensions that
`json.loads` accepts by default.  Object keys are strings; `\uXXXX`
escapes are decoded without surrogate-pair joining (Python joins valid
pairs into one code point, which affects only the resulting string
value, never parse success).  Parsing fails on trailing non-whitespace
input, as `json.loads` does. -/

inductive JVal where
  | null : JVal
  | bool (b : Bool) : JVal
  | str (s : List Nat) : JVal
  | num (lexeme : List Nat) : JVal
  | arr (xs : List JVal) : JVal
  | obj (kvs : List (List Nat × JVal)) : JVal

def jSpace (c : Nat) : Bool := c == 32 || c == 9 || c == 10 || c == 13

def skipWs (s : List Nat) : List Nat := s.dropWhile jSpace

def isDigitB (c : Nat) : Bool := 48 ≤ c && c ≤ 57

def hexVal (c : Nat) : Option Nat :=
  if 48 ≤ c && c ≤ 57 then some (c - 48)
  else if 97 ≤ c && c ≤ 102 then some (c - 87)
  else if 65 ≤ c && c ≤ 70 then some (c - 55)
  else none

def parseStringRest : List Nat → Option (List Nat × List Nat)
  | [] => none
  | c :: cs =>
    if c == 34 then some ([], cs)
    else if c == 92 then
      match cs with
      | [] => none
      | e :: cs' =>
        if e == 34 || e == 92 || e == 47 then
          (parseStringRest cs').map (fun p => (e :: p.1, p.2))
        else if e == 98 then (parseStringRest cs').map (fun p => (8 :: p.1, p.2))
        else if e == 102 then (parseStringRest cs').map (fun p => (12 :: p.1, p.2))
        else if e == 110 then (parseStringRest cs').map (fun p => (10 :: p.1, p.2))
        else if e == 114 then (parseStringRest cs').map (fun p => (13 :: p.1, p.2))
        else if e == 116 then (parseStringRest cs').map (fun p => (9 :: p.1, p.2))
        else if e == 117 then
          match cs' with
          | h1 :: h2 :: h3 :: h4 :: cs'' =>
            match hexVal h1, hexVal h2, hexVal h3, hexVal h4 with
            | some v1, some v2, some v3, some v4 =>
              (parseStringRest cs'').map
                (fun p => ((v1 * 4096 + v2 * 256 + v3 * 16 + v4) :: p.1, p.2))
            | _, _, _, _ => none
          | _ => none
        else none
    else if c < 32 then none
    else (parseStringRest cs).map (fun p => (c :: p.1, p.2))

def parseFracPart : List Nat → Option (List Nat × List Nat)
  | 46 :: t =>
    let ds := t.takeWhile isDigitB
    if ds.isEmpty then none else some (46 :: ds, t.dropWhile isDigitB)
  | s => some ([], s)

def parseExpPart : List Nat → Option (List Nat × List Nat)
  | [] => some ([], [])
  | c :: t =>
    if c == 101 || c == 69 then
      let sg := match t with
        | 43 :: _ => [43]
        | 45 :: _ => [45]
        | _ => []
      let t1 := match t with
        | 43 :: u => u
        | 45 :: u => u
        | _ => t
      let ds := t1.takeWhile isDigitB
      if ds.isEmpty then none else some (c :: sg ++ ds, t1.dropWhile isDigitB)
    else some ([], c :: t)

def parseIntPart : List Nat → Option (List Nat × List Nat)
  | [] => none
  | c :: t =>
    if c == 48 then some ([48], t)
    else if isDigitB c then some (c :: t.takeWhile isDigitB, t.dropWhile isDigitB)
    else none

def parseNumberLexeme (s : List Nat) : Option (List Nat × List Nat) :=
  let sign : List Nat := match s with
    | 45 :: _ => [45]
    | _ => []
  let s1 : List Nat := match s with
    | 45 :: t => t
    | _ => s
  match parseIntPart s1 with
  | none => none
  | some (ip, r1) =>
    match parseFracPart r1 with
    | none => none
    | some (fp, r2) =>
      match parseExpPart r2 with
      | none => none
      | some (ep, r3) => some (sign ++ ip ++ fp ++ ep, r3)

mutual

def parseVal : Nat → List Nat → Option (JVal × List Nat)
  | 0, _ => none
  | fuel + 1, s =>
    match s with
    | [] => none
    | c :: rest =>
      if c == 123 then
        match skipWs rest with
        | 125 :: r => some (.obj [], r)
        | s1 => (parseObjItems fuel s1).map (fun p => (.obj p.1, p.2))
      else if c == 91 then
        match skipWs rest with
        | 93 :: r => some (.arr [], r)
        | s1 => (parseArrItems fuel s1).map (fun p => (.arr p.1, p.2))
      else if c == 34 then
        (parseStringRest rest).map (fun p => (.str p.1, p.2))
      else if c == 116 then
        match rest with
        | 114 :: 117 :: 101 :: r => some (.bool true, r)
        | _ => none
      else if c == 102 then
        match rest with
        | 97 :: 108 :: 115 :: 101 :: r => some (.bool false, r)
        | _ => none
      else if c == 110 then
        match rest with
        | 117 :: 108 :: 108 :: r => some (.null, r)
        | _ => none
      else if c == 78 then
        match rest with
        | 97 :: 78 :: r => some (.num [78, 97, 78], r)
        | _ => none
      else if c == 73 then
        match rest with
        | 110 :: 102 :: 105 :: 110 :: 105 :: 116 :: 121 :: r =>
          some (.num [73, 110, 102, 105, 110, 105, 116, 121], r)
        | _ => none
      else if c == 45 then
        match rest with
        | 73 :: 110 :: 102 :: 105 :: 110 :: 105 :: 116 :: 121 :: r =>
          some (.num [45, 73, 110, 102, 105, 110, 105, 116, 121], r)
        | _ => (parseNumberLexeme (c :: rest)).map (fun p => (.num p.1, p.2))
      else
        (parseNumberLexeme (c :: rest)).map (fun p => (.num p.1, p.2))

def parseArrItems : Nat → List Nat → Option (List JVal × List Nat)
  | 0, _ => none
  | fuel + 1, s =>
    match parseVal fuel s with
    | none => none
    | some (v, r) =>
      match skipWs r with
      | 44 :: r2 =>
        (parseArrItems fuel (skipWs r2)).map (fun p => (v :: p.1, p.2))
      | 93 :: r2 => some ([v], r2)
      | _ => none

def parseObjItems : Nat → List Nat → Option (List (List Nat × JVal) × List Nat)
  | 0, _ => none
  | fuel + 1, s =>
    match s with
    | 34 :: r =>
      match parseStringRest r with
      | none => none
      | some (k, r1) =>
        match skipWs r1 with
        | 58 :: r2 =>
          match parseVal fuel (skipWs r2) with
          | none => none
          | some (v, r3) =>
            match skipWs r3 with
            | 44 :: r4 =>
              (parseObjItems fuel (skipWs r4)).map (fun p => ((k, v) :: p.1, p.2))
            | 125 :: r4 => some ([(k, v)], r4)
            | _ => none
        | _ => none
    | _ => none

end

def parseJson (s : List Nat) : Option JVal :=
  match parseVal (2 * s.length + 2) (skipWs s) with
  | none => none
  | some (v, r) => if skipWs r = [] then some v else none

/-! ## Socket lifecycle and the render method (engine.py lines 40-91)

The render call is embedded as a pure function from the host scene and
the environment's behaviour (whether `sendall` succeeds, and the sequence
of `recv` results) to an event trace plus an outcome.  Events appear in
the trace in the order the corresponding calls occur in `render`:
`socket.socket` / `bind` / `listen` (lines 50-52), `subprocess.Popen`
(line 56), `accept` (line 58), `sendall` (line 62), each `recv`
(line 68), `connection.close()` and `s.close()` (lines 73-74), and
`begin_result` / `layer.rect = ...` / `end_result` (lines 87-91).
`print` calls are omitted.  An exception anywhere propagates out of
`render` (there is no `try`/`finally` in the source), which ends the
trace at that point with a `raised` outcome. -/

def SOCKET_HOST : List Nat := [108, 111, 99, 97, 108, 104, 111, 115, 116]

def SOCKET_PORT : Nat := 8083

inductive PyExn where
  | osError : PyExn
  | unicodeDecodeError : PyExn
  | jsonDecodeError : PyExn
deriving DecidableEq

inductive Ev where
  | sockCreate : Ev
  | sockBind (host : List Nat) (port : Nat) : Ev
  | sockListen (backlog : Nat) : Ev
  | procSpawn : Ev
  | sockAccept : Ev
  | sockSend (data : List Nat) : Ev
  | sockRecv (chunk : List Nat) : Ev
  | connClose : Ev
  | listenClose : Ev
  | beginResult (x y w h : Nat) : Ev
  | setRect (v : JVal) : Ev
  | endResult : Ev

inductive Outcome where
  | completed : Outcome
  | raised (e : PyExn) : Outcome
  | blocked : Outcome
deriving DecidableEq

inductive RecvRes where
  | closed (bufs : List (List Nat)) : RecvRes
  | failed (e : PyExn) : RecvRes
  | blocked : RecvRes

/-- Receive loop of engine.py lines 66-75: `recv(1024)` repeatedly; a
non-empty chunk is decoded as UTF-8 (`in_data.decode("utf8")`) and
appended to `data_buffer`; an empty chunk closes the connection and the
listener and breaks out of the loop.  A `none` entry models a `recv`
call that raises an OS error; an exhausted stream models a peer that
never closes its write side, leaving the loop blocked. -/
def recvLoop : List (Option (List Nat)) → List Ev × RecvRes
  | [] => ([], .blocked)
  | none :: _ => ([], .failed .osError)
  | some c :: rest =>
    if c = [] then ([.sockRecv c, .connClose, .listenClose], .closed [])
    else
      match utf8Decode c with
      | none => ([.sockRecv c], .failed .unicodeDecodeError)
      | some s =>
        match recvLoop rest with
        | (evs, RecvRes.closed bufs) => (.sockRecv c :: evs, .closed (s :: bufs))
        | (evs, r) => (.sockRecv c :: evs, r)

/-- Outbound message of engine.py lines 61-62:
`"{} {}".format(self.size_x, self.size_y).encode("utf8")`. -/
def resolutionMessage (w h : Nat) : List Nat := decString w ++ [32] ++ decString h

/-- Events of engine.py lines 50-58 preceding the send. -/
def setupEvents : List Ev :=
  [.sockCreate, .sockBind SOCKET_HOST SOCKET_PORT, .sockListen 1, .procSpawn, .sockAccept]

/-- The render method, engine.py lines 40-91.  `sendOk = false` models
`sendall` raising an OS error (peer reset during send). -/
def render (sc : Scene) (sendOk : Bool) (stream : List (Option (List Nat))) :
    List Ev × Outcome :=
  if sendOk = false then (setupEvents, .raised .osError)
  else
    let sent := setupEvents ++ [Ev.sockSend (resolutionMessage (sizeX sc) (sizeY sc))]
    match recvLoop stream with
    | (evs, RecvRes.blocked) => (sent ++ evs, .blocked)
    | (evs, RecvRes.failed e) => (sent ++ evs, .raised e)
    | (evs, RecvRes.closed bufs) =>
      match parseJson (pyStrip bufs.flatten) with
      | none => (sent ++ evs, .raised .jsonDecodeError)
      | some v =>
        (sent ++ evs ++ [.beginResult 0 0 (sizeX sc) (sizeY sc), .setRect v, .endResult],
         .completed)

/-! ## Trace observers -/

def Ev.isBeginResult : Ev → Bool
  | .beginResult _ _ _ _ => true
  | _ => false

def Ev.isClose : Ev → Bool
  | .connClose => true
  | .listenClose => true
  | _ => false

def Ev.isSocketOp : Ev → Bool
  | .sockCreate => true
  | .sockBind _ _ => true
  | .sockListen _ => true
  | .sockAccept => true
  | .sockSend _ => true
  | .sockRecv _ => true
  | .connClose => true
  | .listenClose => true
  | _ => false

def Ev.isRecvOrClose : Ev → Bool
  | .sockRecv _ => true
  | .connClose => true
  | .listenClose => true
  | _ => false

def sentData (t : List Ev) : List (List Nat) :=
  t.filterMap fun e =>
    match e with
    | Ev.sockSend d => some d
    | _ => none

def jsonArrayLength : JVal → Option Nat
  | .arr xs => some xs.length
  | _ => none

/-! ## Reversed-digit wire framing

Modelled from the spec: the SnapshotCodec framing of sections 4.2, 6 and
8 is not part of `src/engine.py` (the source file carries the plain-text
protocol variant); the frame layout — the decimal byte length of the
payload with its digits in reverse order (least significant first, no
sign, no padding), immediately followed by the payload — is taken from
the spec's words.  `encodeFrame` builds that frame over byte lists;
`decodeFrame` reads ASCII digits from the front, maintaining their
little-endian value, and stops at the earliest point where the value
read equals the length of the remaining bytes, returning those bytes. -/

def encodeFrame (payload : List Nat) : List Nat :=
  (reverseDigits payload.length).map digitChar ++ payload

def decodeGo (acc : List Nat) (rest : List Nat) : Option (List Nat) :=
  if acc ≠ [] ∧ digitsValLE acc = rest.length then some rest
  else
    match rest with
    | [] => none
    | b :: bs => if 48 ≤ b ∧ b ≤ 57 then decodeGo (acc ++ [b - 48]) bs else none

def decodeFrame (frame : List Nat) : Option (List Nat) := decodeGo [] frame

/-! ## Helper lemmas: decimal digits -/

theorem digitsValLE_natDigitsAux : ∀ (fuel n : Nat), n ≤ fuel →
    digitsValLE (natDigitsAux fuel n) = n := by
  intro fuel
  induction fuel with
  | zero =>
    intro n hn
    interval_cases n
    rfl
  | succ f ih =>
    intro n hn
    cases n with
    | zero => rfl
    | succ m =>
      have hdiv : (m + 1) / 10 ≤ f := by
        have h1 : (m + 1) / 10 < m + 1 := Nat.div_lt_self (Nat.succ_pos m) (by omega)
        omega
      simp only [natDigitsAux, digitsValLE, ih _ hdiv]
      omega

theorem digitsValLE_reverseDigits (L : Nat) : digitsValLE (reverseDigits L) = L := by
  unfold reverseDigits
  by_cases h : L = 0
  · simp [h, digitsValLE]
  · simp [h, digitsValLE_natDigitsAux L L (Nat.le_refl L)]

theorem natDigitsAux_lt_ten : ∀ (fuel n : Nat), ∀ d ∈ natDigitsAux fuel n, d < 10 := by
  intro fuel
  induction fuel with
  | zero =>
    intro n d hd
    cases n <;> simp [natDigitsAux] at hd
  | succ f ih =>
    intro n d hd
    cases n with
    | zero => simp [natDigitsAux] at hd
    | succ m =>
      simp only [natDigitsAux, List.mem_cons] at hd
      rcases hd with h | h
      · omega
      · exact ih _ _ h

theorem reverseDigits_lt_ten (L : Nat) : ∀ d ∈ reverseDigits L, d < 10 := by
  intro d hd
  unfold reverseDigits at hd
  by_cases h : L = 0
  · simp [h] at hd; omega
  · simp only [h, if_false] at hd
    exact natDigitsAux_lt_ten L L d hd

theorem reverseDigits_ne_nil (L : Nat) : reverseDigits L ≠ [] := by
  unfold reverseDigits
  by_cases h : L = 0
  · simp [h]
  · obtain ⟨m, rfl⟩ := Nat.exists_eq_succ_of_ne_zero h
    simp [natDigitsAux]

theorem digitsVal_reverse (l : List Nat) : digitsVal l.reverse = digitsValLE l := by
  induction l with
  | nil => rfl
  | cons d ds ih =>
    simp only [List.reverse_cons, digitsVal, List.foldl_append, digitsValLE]
    simp only [digitsVal] at ih
    rw [ih]
    simp [List.foldl]
    ring

theorem digitsValLE_append (A B : List Nat) :
    digitsValLE (A ++ B) = digitsValLE A + 10 ^ A.length * digitsValLE B := by
  induction A with
  | nil => simp [digitsValLE]
  | cons a as ih =>
    simp only [List.cons_append, digitsValLE, List.length_cons]
    rw [show as.append B = as ++ B from rfl, ih]
    ring

/-! ## Helper lemmas: frame decoding -/

theorem decodeGo_spec : ∀ (B A : List Nat) (L : Nat) (payload : List Nat),
    reverseDigits L = A ++ B → payload.length = L →
    decodeGo A (B.map digitChar ++ payload) = some payload := by
  intro B
  induction B with
  | nil =>
    intro A L payload hsplit hlen
    rw [List.append_nil] at hsplit
    subst hsplit
    unfold decodeGo
    rw [if_pos ⟨reverseDigits_ne_nil L, by simp [digitsValLE_reverseDigits, hlen]⟩]
    simp
  | cons b B' ih =>
    intro A L payload hsplit hlen
    unfold decodeGo
    rw [if_neg]
    · simp only [List.map_cons, List.cons_append]
      rw [if_pos]
      · have hb : digitChar b - 48 = b := by simp [digitChar]
        rw [hb]
        exact ih (A ++ [b]) L payload (by rw [hsplit, List.append_cons]) hlen
      · have hmem : b ∈ reverseDigits L := by
          rw [hsplit]
          exact List.mem_append_right A (List.mem_cons_self b B')
        have hb10 := reverseDigits_lt_ten L b hmem
        constructor
        · simp [digitChar]
        · simp only [digitChar]
          omega
    · rintro ⟨hne, hval⟩
      have hle : digitsValLE A ≤ L := by
        have := digitsValLE_append A (b :: B')
        rw [← hsplit, digitsValLE_reverseDigits] at this
        omega
      simp only [List.map_cons, List.cons_append, List.length_cons, List.length_append,
        List.length_map, hlen] at hval
      omega

theorem decodeFrame_encodeFrame (payload : List Nat) :
    decodeFrame (encodeFrame payload) = some payload := by
  unfold decodeFrame encodeFrame
  exact decodeGo_spec (reverseDigits payload.length) [] payload.length payload rfl rfl

/-! ## Helper lemmas: UTF-8 -/

theorem utf8Run_state_zero (acc lo : Nat) (l : List Nat) :
    utf8Run 0 acc lo l = utf8Run 0 0 0 l := by
  cases l <;> simp [utf8Run]

theorem utf8Run_append (b y : List Nat) (hb : utf8Run 0 0 0 b = some y) :
    ∀ (a : List Nat) (need acc lo : Nat) (x : List Nat),
    utf8Run need acc lo a = some x →
    utf8Run need acc lo (a ++ b) = some (x ++ y) := by
  intro a
  induction a with
  | nil =>
    intro need acc lo x ha
    cases need with
    | zero =>
      simp only [utf8Run] at ha
      cases ha
      simpa [utf8Run_state_zero] using hb
    | succ n => simp [utf8Run] at ha
  | cons b0 r ih =>
    intro need acc lo x ha
    match need with
    | 0 =>
      by_cases h1 : b0 < 128
      · simp only [utf8Run, if_pos h1, Option.map_eq_some'] at ha
        obtain ⟨t, ht, rfl⟩ := ha
        simp only [List.cons_append, utf8Run, if_pos h1, Option.map_eq_some']
        exact ⟨t ++ y, ih 0 0 0 t ht, by simp⟩
      · by_cases h2 : b0 < 194
        · simp [utf8Run, h1, h2] at ha
        · by_cases h3 : b0 < 224
          · simp only [utf8Run, if_neg h1, if_neg h2, if_pos h3] at ha
            simpa only [List.cons_append, utf8Run, if_neg h1, if_neg h2, if_pos h3] using
              ih 1 (b0 - 192) 128 x ha
          · by_cases h4 : b0 < 240
            · simp only [utf8Run, if_neg h1, if_neg h2, if_neg h3, if_pos h4] at ha
              simpa only [List.cons_append, utf8Run, if_neg h1, if_neg h2, if_neg h3,
                if_pos h4] using ih 2 (b0 - 224) 2048 x ha
            · by_cases h5 : b0 < 245
              · simp only [utf8Run, if_neg h1, if_neg h2, if_neg h3, if_neg h4,
                  if_pos h5] at ha
                simpa only [List.cons_append, utf8Run, if_neg h1, if_neg h2, if_neg h3,
                  if_neg h4, if_pos h5] using ih 3 (b0 - 240) 65536 x ha
              · simp [utf8Run, h1, h2, h3, h4, h5] at ha
    | 1 =>
      by_cases hc : contB b0
      · by_cases hv : cpInvalid lo (acc * 64 + (b0 - 128)) = true
        · simp [utf8Run, hc, hv] at ha
        · simp only [Bool.not_eq_true] at hv
          simp only [utf8Run, if_pos hc, hv, Bool.false_eq_true, if_false,
            Option.map_eq_some'] at ha
          obtain ⟨t, ht, rfl⟩ := ha
          simp only [List.cons_append, utf8Run, if_pos hc, hv, Bool.false_eq_true, if_false,
            Option.map_eq_some']
          exact ⟨t ++ y, ih 0 0 0 t ht, by simp⟩
      · simp [utf8Run, hc] at ha
    | n + 2 =>
      by_cases hc : contB b0
      · simp only [utf8Run, if_pos hc] at ha
        simpa only [List.cons_append, utf8Run, if_pos hc] using
          ih (n + 1) (acc * 64 + (b0 - 128)) lo x ha
      · simp [utf8Run, hc] at ha

theorem utf8Decode_append (a b x y : List Nat) (ha : utf8Decode a = some x)
    (hb : utf8Decode b = some y) : utf8Decode (a ++ b) = some (x ++ y) :=
  utf8Run_append b y hb a 0 0 0 x ha

/-! ## Helper lemmas: receive loop -/

theorem recvLoop_closed : ∀ (chunks : List (List Nat)) (rest : List (Option (List Nat))),
    (∀ c ∈ chunks, c ≠ []) → (∀ c ∈ chunks, (utf8Decode c).isSome) →
    recvLoop (chunks.map some ++ some [] :: rest) =
      (chunks.map Ev.sockRecv ++ [Ev.sockRecv [], Ev.connClose, Ev.listenClose],
       RecvRes.closed (chunks.map (fun c => (utf8Decode c).getD []))) := by
  intro chunks
  induction chunks with
  | nil =>
    intro rest h1 h2
    simp [recvLoop]
  | cons c cs ih =>
    intro rest h1 h2
    have hc : ¬(c = []) := h1 c (List.mem_cons_self c cs)
    have hd : (utf8Decode c).isSome := h2 c (List.mem_cons_self c cs)
    obtain ⟨s, hs⟩ := Option.isSome_iff_exists.mp hd
    simp only [List.map_cons, List.cons_append, recvLoop, if_neg hc, hs, List.append_eq]
    rw [ih rest (fun d hdm => h1 d (List.mem_cons_of_mem c hdm))
        (fun d hdm => h2 d (List.mem_cons_of_mem c hdm))]
    simp [hs]

theorem recvLoop_blocked : ∀ (chunks : List (List Nat)),
    (∀ c ∈ chunks, c ≠ []) → (∀ c ∈ chunks, (utf8Decode c).isSome) →
    recvLoop (chunks.map some) = (chunks.map Ev.sockRecv, RecvRes.blocked) := by
  intro chunks
  induction chunks with
  | nil =>
    intro h1 h2
    simp [recvLoop]
  | cons c cs ih =>
    intro h1 h2
    have hc : ¬(c = []) := h1 c (List.mem_cons_self c cs)
    obtain ⟨s, hs⟩ := Option.isSome_iff_exists.mp (h2 c (List.mem_cons_self c cs))
    simp only [List.map_cons, recvLoop, if_neg hc, hs, List.append_eq]
    rw [ih (fun d hdm => h1 d (List.mem_cons_of_mem c hdm))
        (fun d hdm => h2 d (List.mem_cons_of_mem c hdm))]

theorem recvLoop_events : ∀ (st : List (Option (List Nat))),
    ∀ e ∈ (recvLoop st).1, e.isRecvOrClose = true := by
  intro st
  induction st with
  | nil => simp [recvLoop]
  | cons o rest ih =>
    cases o with
    | none => simp [recvLoop]
    | some c =>
      by_cases hc : c = []
      · subst hc
        simp [recvLoop, Ev.isRecvOrClose]
      · simp only [recvLoop, if_neg hc]
        cases hdc : utf8Decode c with
        | none =>
          simp [Ev.isRecvOrClose]
        | some s =>
          rcases hr : recvLoop rest with ⟨evs, r⟩
          rw [hr] at ih
          cases r <;> simpa [Ev.isRecvOrClose] using fun e he => ih e he

theorem recvLoop_failed_isClose : ∀ (st : List (Option (List Nat))) (e : PyExn),
    (recvLoop st).2 = RecvRes.failed e →
    ∀ ev ∈ (recvLoop st).1, ev.isClose = false := by
  intro st
  induction st with
  | nil => simp [recvLoop]
  | cons o rest ih =>
    cases o with
    | none => simp [recvLoop]
    | some c =>
      intro e hfail ev hev
      by_cases hc : c = []
      · subst hc
        simp [recvLoop] at hfail
      · simp only [recvLoop, if_neg hc] at hfail hev
        cases hdc : utf8Decode c with
        | none =>
          rw [hdc] at hev
          simp at hev
          simp [hev, Ev.isClose]
        | some s =>
          rw [hdc] at hfail hev
          rcases hr : recvLoop rest with ⟨evs, r⟩
          rw [hr] at hfail hev ih
          cases r with
          | closed bufs => simp at hfail
          | failed e2 =>
            simp at hfail hev
            rcases hev with rfl | hev
            · rfl
            · exact ih e2 rfl ev hev
          | blocked => simp at hfail

theorem sentData_recvLoop (st : List (Option (List Nat))) :
    sentData (recvLoop st).1 = [] := by
  have h := recvLoop_events st
  unfold sentData
  rw [List.filterMap_eq_nil_iff]
  intro e he
  have := h e he
  cases e <;> simp_all [Ev.isRecvOrClose]

theorem utf8Decode_flatten (chunks : List (List Nat))
    (h2 : ∀ c ∈ chunks, (utf8Decode c).isSome) :
    utf8Decode chunks.flatten =
      some ((chunks.map (fun c => (utf8Decode c).getD [])).flatten) := by
  induction chunks with
  | nil => rfl
  | cons c cs ih =>
    obtain ⟨s, hs⟩ := Option.isSome_iff_exists.mp (h2 c (List.mem_cons_self c cs))
    have hrest := ih (fun d hd => h2 d (List.mem_cons_of_mem c hd))
    simp only [List.flatten_cons, List.map_cons]
    rw [utf8Decode_append c cs.flatten s ((cs.map (fun c => (utf8Decode c).getD [])).flatten)
      hs hrest]
    simp [hs]

/-! ## Claim theorems -/

/-- Claim C1, counterexample.  The claim says every outbound message is a
reversed-digit length prefix followed by a JSON payload.  At resolution
4x3 (100 percent) the single message written to the accepted connection
is the three bytes `4`, space, `3`, and no decomposition of those bytes
into a reversed-decimal length prefix followed by a payload of exactly
that length exists. -/
theorem c1_counterexample :
    sentData ((render ⟨4, 3, 100⟩ true [some []]).1) = [[52, 32, 51]] ∧
    ¬ ∃ payload : List Nat,
        [52, 32, 51] = (reverseDigits payload.length).map digitChar ++ payload := by
  refine ⟨rfl, ?_⟩
  rintro ⟨p, hp⟩
  rcases p with _ | ⟨a, _ | ⟨b, _ | ⟨c, rest⟩⟩⟩
  · simp [reverseDigits, digitChar] at hp
  · simp [reverseDigits, natDigitsAux, digitChar] at hp
  · simp [reverseDigits, natDigitsAux, digitChar] at hp
  · have hlen := congrArg List.length hp
    simp only [List.length_cons, List.length_append, List.length_map, List.length_nil] at hlen
    have h1 : 1 ≤ (reverseDigits (rest.length + 1 + 1 + 1)).length :=
      List.length_pos.mpr (reverseDigits_ne_nil _)
    omega

/-- Claim C1, amended.  For every render request the single outbound
message written to the accepted connection is the plain UTF-8 text of
the decimal width, one space byte, and the decimal height — no length
prefix and no JSON payload (engine.py lines 61-62). -/
theorem c1_amended (sc : Scene) (stream : List (Option (List Nat))) :
    sentData ((render sc true stream).1) =
      [decString (sizeX sc) ++ [32] ++ decString (sizeY sc)] := by
  unfold render
  rw [if_neg (by simp)]
  rcases hr : recvLoop stream with ⟨evs, r⟩
  have hevs : sentData evs = [] := by
    have := sentData_recvLoop stream
    rw [hr] at this
    exact this
  simp only [sentData] at hevs
  cases r with
  | blocked =>
    simp [sentData, List.filterMap_append, setupEvents, resolutionMessage, hevs]
  | failed e =>
    simp [sentData, List.filterMap_append, setupEvents, resolutionMessage, hevs]
  | closed bufs =>
    cases hp : parseJson (pyStrip bufs.flatten) with
    | none =>
      simp [sentData, List.filterMap_append, setupEvents, resolutionMessage, hevs, hp]
    | some v =>
      simp [sentData, List.filterMap_append, setupEvents, resolutionMessage, hevs, hp]

/-- Claim C2.  The claim (and spec section 7) requires the decoder to
check `length == width * height * 4` and fail fatally on mismatch; the
code has no such check.  At resolution 1x1 (expected 4 channel values)
the response `[1]` — a one-element JSON array — is decoded, the result
region is begun, the mismatched array is assigned to the pass, and the
request completes normally instead of failing. -/
theorem c2_theorem :
    (render ⟨1, 1, 100⟩ true [some [91, 49, 93], some []]).2 = Outcome.completed ∧
    Ev.setRect (JVal.arr [JVal.num [49]]) ∈
      (render ⟨1, 1, 100⟩ true [some [91, 49, 93], some []]).1 ∧
    Ev.endResult ∈ (render ⟨1, 1, 100⟩ true [some [91, 49, 93], some []]).1 ∧
    jsonArrayLength (JVal.arr [JVal.num [49]]) = some 1 ∧
    sizeX ⟨1, 1, 100⟩ * sizeY ⟨1, 1, 100⟩ * 4 = 4 ∧
    (1 : Nat) ≠ 4 := by
  have htr : (render ⟨1, 1, 100⟩ true [some [91, 49, 93], some []]).1 =
      [Ev.sockCreate, Ev.sockBind SOCKET_HOST SOCKET_PORT, Ev.sockListen 1, Ev.procSpawn,
       Ev.sockAccept, Ev.sockSend [49, 32, 49], Ev.sockRecv [91, 49, 93], Ev.sockRecv [],
       Ev.connClose, Ev.listenClose, Ev.beginResult 0 0 1 1,
       Ev.setRect (JVal.arr [JVal.num [49]]), Ev.endResult] := rfl
  refine ⟨rfl, ?_, ?_, rfl, rfl, by decide⟩
  · rw [htr]
    simp
  · rw [htr]
    simp

/-- Claim C3, counterexample.  The claim says the loop always stops
exactly at a zero-length read with every received byte accumulated.  On
the two-chunk stream `0xC2` then `0xA2` (a two-byte UTF-8 character
split across the reads, valid as a whole) the loop instead raises a
Unicode decode error on the first chunk and never reaches the
zero-length read. -/
theorem c3_counterexample :
    recvLoop [some [194], some [162], some []] =
      ([Ev.sockRecv [194]], RecvRes.failed PyExn.unicodeDecodeError) ∧
    utf8Decode ([194] ++ [162]) = some [162] :=
  ⟨rfl, by decide⟩

/-- Claim C3, amended.  Provided every received chunk is non-empty and
individually valid UTF-8, the receive loop appends each chunk's decoded
text to the accumulation buffer and stops exactly at the first
zero-length read; the accumulated message is then the UTF-8 decoding of
the concatenation of all bytes received before closure.  Without a
zero-length read the loop never terminates (no inbound length prefix,
no timeout). -/
theorem c3_amended (chunks : List (List Nat)) (rest : List (Option (List Nat)))
    (h1 : ∀ c ∈ chunks, c ≠ []) (h2 : ∀ c ∈ chunks, (utf8Decode c).isSome) :
    recvLoop (chunks.map some ++ some [] :: rest) =
      (chunks.map Ev.sockRecv ++ [Ev.sockRecv [], Ev.connClose, Ev.listenClose],
       RecvRes.closed (chunks.map (fun c => (utf8Decode c).getD []))) ∧
    utf8Decode chunks.flatten =
      some ((chunks.map (fun c => (utf8Decode c).getD [])).flatten) ∧
    recvLoop (chunks.map some) = (chunks.map Ev.sockRecv, RecvRes.blocked) :=
  ⟨recvLoop_closed chunks rest h1 h2, utf8Decode_flatten chunks h2,
   recvLoop_blocked chunks h1 h2⟩

/-- Claim C3, witness for the amended theorem at the single chunk
`"hi"` followed by the closing zero-length read. -/
theorem c3_witness :
    ((∀ c ∈ [[104, 105]], c ≠ ([] : List Nat)) ∧
     (∀ c ∈ [[104, 105]], (utf8Decode c).isSome)) ∧
    (recvLoop ([[104, 105]].map some ++ some [] :: []) =
      ([[104, 105]].map Ev.sockRecv ++ [Ev.sockRecv [], Ev.connClose, Ev.listenClose],
       RecvRes.closed ([[104, 105]].map (fun c => (utf8Decode c).getD []))) ∧
     utf8Decode ([[104, 105]] : List (List Nat)).flatten =
       some (([[104, 105]].map (fun c => (utf8Decode c).getD [])).flatten) ∧
     recvLoop ([[104, 105]].map some) = ([[104, 105]].map Ev.sockRecv, RecvRes.blocked)) :=
  ⟨⟨by decide, by decide⟩, c3_amended [[104, 105]] [] (by decide) (by decide)⟩

/-- Claim C4, counterexample.  The claim says that when the peer closes
without sending, the decoded pixel buffer is the empty array and the
resolution-length invariant rejects it.  In the code nothing is ever
decoded: `json.loads` raises on the empty accumulated text, the request
aborts with a JSON decode error, and no `setRect` of any array (empty
or otherwise) occurs. -/
theorem c4_counterexample :
    (render ⟨4, 3, 100⟩ true [some []]).2 = Outcome.raised PyExn.jsonDecodeError ∧
    parseJson (pyStrip (List.flatten ([] : List (List Nat)))) = none ∧
    (∀ xs : List JVal, ∀ e ∈ (render ⟨4, 3, 100⟩ true [some []]).1,
        e ≠ Ev.setRect (JVal.arr xs)) := by
  refine ⟨rfl, rfl, ?_⟩
  intro xs e he
  have htr : (render ⟨4, 3, 100⟩ true [some []]).1 =
      [Ev.sockCreate, Ev.sockBind SOCKET_HOST SOCKET_PORT, Ev.sockListen 1, Ev.procSpawn,
       Ev.sockAccept, Ev.sockSend [52, 32, 51], Ev.sockRecv [], Ev.connClose,
       Ev.listenClose] := rfl
  rw [htr] at he
  simp only [List.mem_cons, List.not_mem_nil, or_false] at he
  rcases he with rfl | rfl | rfl | rfl | rfl | rfl | rfl | rfl | rfl <;> simp

/-- Claim C4, amended.  If the peer closes its write side without
sending any bytes, the accumulated text is empty, parsing it as JSON
fails, and the request aborts with a fatal decode error before any
result region is begun. -/
theorem c4_amended (sc : Scene) (rest : List (Option (List Nat))) :
    (render sc true (some [] :: rest)).2 = Outcome.raised PyExn.jsonDecodeError ∧
    ∀ e ∈ (render sc true (some [] :: rest)).1, e.isBeginResult = false := by
  constructor
  · rfl
  · intro e he
    have htr : (render sc true (some [] :: rest)).1 =
        [Ev.sockCreate, Ev.sockBind SOCKET_HOST SOCKET_PORT, Ev.sockListen 1, Ev.procSpawn,
         Ev.sockAccept, Ev.sockSend (resolutionMessage (sizeX sc) (sizeY sc)),
         Ev.sockRecv [], Ev.connClose, Ev.listenClose] := rfl
    rw [htr] at he
    simp only [List.mem_cons, List.not_mem_nil, or_false] at he
    rcases he with rfl | rfl | rfl | rfl | rfl | rfl | rfl | rfl | rfl <;> rfl

/-- Claim C5, counterexample.  The claim says any response that is not a
well-formed JSON array of numbers fails before `begin_result`.  The
response text `3` is well-formed JSON but not an array; `json.loads`
succeeds on it, `begin_result` is called, and the request completes. -/
theorem c5_counterexample :
    parseJson (pyStrip (List.flatten [[51]])) = some (JVal.num [51]) ∧
    (∀ xs : List JVal, JVal.num [51] ≠ JVal.arr xs) ∧
    (render ⟨4, 3, 100⟩ true [some [51], some []]).2 = Outcome.completed ∧
    Ev.beginResult 0 0 4 3 ∈ (render ⟨4, 3, 100⟩ true [some [51], some []]).1 := by
  refine ⟨rfl, fun xs h => JVal.noConfusion h, rfl, ?_⟩
  have htr : (render ⟨4, 3, 100⟩ true [some [51], some []]).1 =
      [Ev.sockCreate, Ev.sockBind SOCKET_HOST SOCKET_PORT, Ev.sockListen 1, Ev.procSpawn,
       Ev.sockAccept, Ev.sockSend [52, 32, 51], Ev.sockRecv [51], Ev.sockRecv [],
       Ev.connClose, Ev.listenClose, Ev.beginResult 0 0 4 3,
       Ev.setRect (JVal.num [51]), Ev.endResult] := rfl
  rw [htr]
  simp

/-- Claim C5, amended.  For every inbound response whose accumulated,
stripped text is not well-formed JSON at all, the request raises a fatal
JSON decode error and `begin_result` is never called. -/
theorem c5_amended (sc : Scene) (stream : List (Option (List Nat)))
    (evs : List Ev) (bufs : List (List Nat))
    (hr : recvLoop stream = (evs, RecvRes.closed bufs))
    (hp : parseJson (pyStrip bufs.flatten) = none) :
    (render sc true stream).2 = Outcome.raised PyExn.jsonDecodeError ∧
    ∀ e ∈ (render sc true stream).1, e.isBeginResult = false := by
  unfold render
  rw [if_neg (by simp), hr]
  dsimp only
  rw [hp]
  constructor
  · rfl
  · intro e he
    rcases List.mem_append.mp he with h | h
    · simp only [setupEvents, List.cons_append, List.nil_append, List.mem_cons,
        List.not_mem_nil, or_false] at h
      rcases h with rfl | rfl | rfl | rfl | rfl | rfl <;> rfl
    · have hro := recvLoop_events stream e (by rw [hr]; exact h)
      cases e <;> simp_all [Ev.isRecvOrClose, Ev.isBeginResult]

/-- Claim C5, witness for the amended theorem: the truncated response
text `[1,2` fails to parse and the request aborts with no result
region. -/
theorem c5_witness :
    recvLoop [some [91, 49, 44, 50], some []] =
      ([Ev.sockRecv [91, 49, 44, 50], Ev.sockRecv [], Ev.connClose, Ev.listenClose],
       RecvRes.closed [[91, 49, 44, 50]]) ∧
    parseJson (pyStrip ([[91, 49, 44, 50]] : List (List Nat)).flatten) = none ∧
    ((render ⟨4, 3, 100⟩ true [some [91, 49, 44, 50], some []]).2 =
        Outcome.raised PyExn.jsonDecodeError ∧
     ∀ e ∈ (render ⟨4, 3, 100⟩ true [some [91, 49, 44, 50], some []]).1,
        e.isBeginResult = false) :=
  ⟨rfl, rfl, c5_amended ⟨4, 3, 100⟩ [some [91, 49, 44, 50], some []]
    [Ev.sockRecv [91, 49, 44, 50], Ev.sockRecv [], Ev.connClose, Ev.listenClose]
    [[91, 49, 44, 50]] rfl rfl⟩

/-- Claim C6.  On the normal path (peer sends some chunks and closes),
the request's trace is exactly one fresh full socket lifecycle — create,
bind to the fixed host and port, listen, spawn, accept, send, the reads,
then close of both the connection and the listener — followed only by
non-socket events (decode and result assembly).  Since `render` builds
this trace from scratch per call, no listener or connection persists
into or is reused by a later request. -/
theorem c6_theorem (sc : Scene) (chunks : List (List Nat)) (rest : List (Option (List Nat)))
    (h1 : ∀ c ∈ chunks, c ≠ []) (h2 : ∀ c ∈ chunks, (utf8Decode c).isSome) :
    ∃ tail : List Ev,
      (render sc true (chunks.map some ++ some [] :: rest)).1 =
        [Ev.sockCreate, Ev.sockBind SOCKET_HOST SOCKET_PORT, Ev.sockListen 1, Ev.procSpawn,
         Ev.sockAccept, Ev.sockSend (resolutionMessage (sizeX sc) (sizeY sc))] ++
        chunks.map Ev.sockRecv ++ [Ev.sockRecv [], Ev.connClose, Ev.listenClose] ++ tail ∧
      ∀ e ∈ tail, e.isSocketOp = false := by
  unfold render
  rw [if_neg (by simp), recvLoop_closed chunks rest h1 h2]
  dsimp only
  cases hp : parseJson (pyStrip (List.map (fun c => (utf8Decode c).getD []) chunks).flatten) with
  | none =>
    refine ⟨[], ?_, by simp⟩
    simp [setupEvents, List.append_assoc]
  | some v =>
    refine ⟨[Ev.beginResult 0 0 (sizeX sc) (sizeY sc), Ev.setRect v, Ev.endResult], ?_, ?_⟩
    · simp [setupEvents, List.append_assoc]
    · intro e he
      simp only [List.mem_cons, List.not_mem_nil, or_false] at he
      rcases he with rfl | rfl | rfl <;> rfl

/-- Claim C6, witness at one received chunk `"1"` followed by the
closing zero-length read. -/
theorem c6_witness :
    ((∀ c ∈ [[49]], c ≠ ([] : List Nat)) ∧ (∀ c ∈ [[49]], (utf8Decode c).isSome)) ∧
    ∃ tail : List Ev,
      (render ⟨4, 3, 100⟩ true ([[49]].map some ++ some [] :: [])).1 =
        [Ev.sockCreate, Ev.sockBind SOCKET_HOST SOCKET_PORT, Ev.sockListen 1, Ev.procSpawn,
         Ev.sockAccept,
         Ev.sockSend (resolutionMessage (sizeX ⟨4, 3, 100⟩) (sizeY ⟨4, 3, 100⟩))] ++
        [[49]].map Ev.sockRecv ++ [Ev.sockRecv [], Ev.connClose, Ev.listenClose] ++ tail ∧
      ∀ e ∈ tail, e.isSocketOp = false :=
  ⟨⟨by decide, by decide⟩, c6_theorem ⟨4, 3, 100⟩ [[49]] [] (by decide) (by decide)⟩

/-- Claim C7, counterexample.  The claim says the computed resolution
pair is always strictly positive.  At host resolution 4 x 4 with
resolution percentage 1 (both values Blender permits), the computation
`int(4 * (1 / 100.0))` yields 0 for both dimensions. -/
theorem c7_counterexample :
    ¬ (0 < sizeX ⟨4, 4, 1⟩ ∧ 0 < sizeY ⟨4, 4, 1⟩) := by
  decide

/-- Claim C7, amended.  Each computed dimension is a natural number that
is strictly positive exactly when the host resolution times the
resolution percentage reaches 100; below that threshold the truncating
scale computation produces 0. -/
theorem c7_amended (sc : Scene) :
    (0 < sizeX sc ↔ 100 ≤ sc.resolution_x * sc.resolution_percentage) ∧
    (0 < sizeY sc ↔ 100 ≤ sc.resolution_y * sc.resolution_percentage) := by
  have key : ∀ a : Nat, 0 < a / 100 ↔ 100 ≤ a := by
    intro a
    constructor
    · intro h
      by_contra hlt
      rw [Nat.div_eq_of_lt (by omega)] at h
      exact Nat.lt_irrefl 0 h
    · intro h
      exact Nat.div_pos h (by omega)
  exact ⟨key _, key _⟩

/-- Claim C8.  Reversing the decimal digits of a non-negative length L
twice yields L again (the wire prefix read back in reverse parses to L),
and a frame built as the reversed-digit prefix of L followed by a
payload of exactly L bytes decodes back to exactly that payload. -/
theorem c8_theorem (L : Nat) (payload : List Nat) (h : payload.length = L) :
    digitsVal (reverseDigits L).reverse = L ∧
    decodeFrame ((reverseDigits L).map digitChar ++ payload) = some payload := by
  constructor
  · rw [digitsVal_reverse, digitsValLE_reverseDigits]
  · subst h
    exact decodeFrame_encodeFrame payload

/-- Claim C8, witness at the two-byte payload `0x7B 0x7D`. -/
theorem c8_witness :
    ([123, 125] : List Nat).length = 2 ∧
    (digitsVal (reverseDigits 2).reverse = 2 ∧
     decodeFrame ((reverseDigits 2).map digitChar ++ [123, 125]) = some [123, 125]) :=
  ⟨rfl, c8_theorem 2 [123, 125] rfl⟩

/-- Claim C9.  The chunks `0xC3` and `0xA9` (each within the 1024-byte
read limit) concatenate to the valid UTF-8 encoding of U+00E9, yet the
receive loop decodes each chunk independently, fails on the first chunk,
and the request raises a Unicode decode error instead of accumulating
the full message. -/
theorem c9_theorem :
    (∀ c ∈ [[195], [169]], List.length c ≤ 1024) ∧
    utf8Decode ([195] ++ [169]) = some [233] ∧
    recvLoop [some [195], some [169], some []] =
      ([Ev.sockRecv [195]], RecvRes.failed PyExn.unicodeDecodeError) ∧
    (render ⟨4, 3, 100⟩ true [some [195], some [169], some []]).2 =
      Outcome.raised PyExn.unicodeDecodeError :=
  ⟨by decide, by decide, rfl, rfl⟩

/-- Claim C10.  If `sendall` raises, or any read of the loop raises (an
OS error on `recv` or a Unicode decode error on a chunk), the exception
propagates out of `render` and neither `connection.close()` nor
`s.close()` is ever reached: the trace of the failing request contains
no close event, so the fixed port is not released by that request. -/
theorem c10_theorem (sc : Scene) (sendOk : Bool) (stream : List (Option (List Nat)))
    (h : sendOk = false ∨ ∃ e, (recvLoop stream).2 = RecvRes.failed e) :
    (∃ e2, (render sc sendOk stream).2 = Outcome.raised e2) ∧
    ∀ ev ∈ (render sc sendOk stream).1, ev.isClose = false := by
  cases sendOk with
  | false =>
    refine ⟨⟨PyExn.osError, rfl⟩, ?_⟩
    intro ev hev
    have htr : (render sc false stream).1 = setupEvents := rfl
    rw [htr] at hev
    simp only [setupEvents, List.mem_cons, List.not_mem_nil, or_false] at hev
    rcases hev with rfl | rfl | rfl | rfl | rfl <;> rfl
  | true =>
    have h' : ∃ e, (recvLoop stream).2 = RecvRes.failed e := by
      rcases h with hf | he
      · exact absurd hf (by simp)
      · exact he
    obtain ⟨e, hfail⟩ := h'
    unfold render
    rw [if_neg (by simp)]
    rcases hr : recvLoop stream with ⟨evs, r⟩
    rw [hr] at hfail
    replace hfail : r = RecvRes.failed e := hfail
    subst hfail
    dsimp only
    refine ⟨⟨e, rfl⟩, ?_⟩
    intro ev hev
    rcases List.mem_append.mp hev with hh | hh
    · simp only [setupEvents, List.cons_append, List.nil_append, List.mem_cons,
        List.not_mem_nil, or_false] at hh
      rcases hh with rfl | rfl | rfl | rfl | rfl | rfl <;> rfl
    · exact recvLoop_failed_isClose stream e (by rw [hr]) ev (by rw [hr]; exact hh)

/-- Claim C10, witness at a failing send. -/
theorem c10_witness :
    (false = false ∨ ∃ e, (recvLoop ([] : List (Option (List Nat)))).2 = RecvRes.failed e) ∧
    ((∃ e2, (render ⟨4, 3, 100⟩ false []).2 = Outcome.raised e2) ∧
     ∀ ev ∈ (render ⟨4, 3, 100⟩ false []).1, ev.isClose = false) :=
  ⟨Or.inl rfl, c10_theorem ⟨4, 3, 100⟩ false [] (Or.inl rfl)⟩
